import Mathlib

/-!
Verification of the deterministic simulation core of the NeonDrop
falling-block puzzle game.

This file is a shallow embedding, in Lean 4, of the game's source:
`random.js` (the LCG), `physics-pure.js` (collision/rotation/line logic),
`game-state.js` (piece data, RNG-sequenced piece selection),
`scoring-engine.js` (scoring, hash-chained ledger) and
`game-engine.js` / `main.js` (the phase state machine and its driver).

Modelling conventions:
* JavaScript numbers that hold integers are modelled as `Int` (all values
  the code produces stay far below 2^53, where float64 arithmetic is
  exact); millisecond timers, the `[0,1)` RNG outputs and other fractional
  quantities are modelled as `ℚ`.
* `Date.now()` is passed around explicitly as a parameter `now : Int`.
* A thrown exception (`TypeError` on a `null` dereference, the explicit
  `throw new Error(...)` calls, an `undefined` array element flowing into
  a piece constructor) ends the run; fallible operations therefore return
  `Option`, with `none` for the exceptional outcome.
* Render-only data (the particle arrays, the shadow cache, the persisted
  high score, replay snapshots/inputs and the float-valued statistics
  `pps`/`apm`/`efficiency`/`totalTime`) is omitted: no function modelled
  here reads it back, and no claim mentions it.
-/

-- Batteries marks the arithmetic on `Rat` `@[irreducible]`, which stops
-- `decide` from evaluating the embedding on concrete states.  Restoring
-- default reducibility is sound: kernel-checked proofs never consult
-- reducibility attributes.
set_option allowUnsafeReducibility true

attribute [local semireducible] Rat.add Rat.mul Rat.sub Rat.inv Rat.floor Rat.ceil

namespace NeonDrop

/-! ## RNG (`random.js`)

`createRNG(seed)` keeps a mutable integer `state`; `next()` performs
`state = (state * 1664525 + 1013904223) % 4294967296` and returns
`state / 4294967296`.  JavaScript's `%` truncates toward zero (the result
takes the sign of the dividend), which is `Int.tmod`. -/

def rngStep (s : Int) : Int :=
  (s * 1664525 + 1013904223).tmod 4294967296

/-- The internal RNG state after `n` calls to `next()`, starting from `seed`. -/
def rngState (seed : Int) : Nat → Int
  | 0 => seed
  | n + 1 => rngStep (rngState seed n)

/-- The value returned by the `(n+1)`-st call to `next()` (0-indexed):
`next` first advances the state, then returns `state / 4294967296`. -/
def rngOutput (seed : Int) (n : Nat) : ℚ :=
  (rngState seed (n + 1) : ℚ) / 4294967296

/-! ## Pieces (`game-state.js`) -/

inductive PieceType
  | I | J | L | O | S | T | Z | FLOAT | PLUS | U | DOT
  deriving DecidableEq, Repr

/-- A piece.  `generation` is attached by the engine at spawn/hold time;
`createPiece` leaves it unset (`none` models the absent JS field). -/
structure Piece where
  type : PieceType
  shape : List (List Bool)
  color : String
  gridX : Int
  gridY : Int
  rotation : Int
  upMovesUsed : Nat
  generation : Option Int
  deriving DecidableEq, Repr

/-- Shape matrix of `PIECE_DEFINITIONS[type]` (1 ↦ `true`, 0 ↦ `false`). -/
def pieceShape : PieceType → List (List Bool)
  | .I => [[false,false,false,false], [true,true,true,true],
           [false,false,false,false], [false,false,false,false]]
  | .J => [[true,false,false], [true,true,true], [false,false,false]]
  | .L => [[false,false,true], [true,true,true], [false,false,false]]
  | .O => [[true,true], [true,true]]
  | .S => [[false,true,true], [true,true,false], [false,false,false]]
  | .T => [[false,true,false], [true,true,true], [false,false,false]]
  | .Z => [[true,true,false], [false,true,true], [false,false,false]]
  | .FLOAT => [[true]]
  | .PLUS => [[false,true,false], [true,true,true], [false,true,false]]
  | .U => [[true,false,true], [true,false,true], [true,true,true]]
  | .DOT => [[true,true,false], [true,false,true], [false,true,true]]

def pieceColor : PieceType → String
  | .I => "#00FFFF" | .J => "#0000FF" | .L => "#FF7F00" | .O => "#FFFF00"
  | .S => "#00FF00" | .T => "#8A2BE2" | .Z => "#FF0000" | .FLOAT => "#FFFFFF"
  | .PLUS => "#FFD700" | .U => "#FF69B4" | .DOT => "#00CED1"

def pieceSpawn : PieceType → Int × Int
  | .I => (3, -2) | .J => (3, -2) | .L => (3, -2) | .O => (4, -2)
  | .S => (3, -2) | .T => (3, -2) | .Z => (3, -2) | .FLOAT => (4, -1)
  | .PLUS => (3, -3) | .U => (3, -3) | .DOT => (3, -3)

/-- `createPiece(type)`: builds a fresh piece at its spawn position.
(The `PieceType` argument is total, so the `Unknown piece type` throw
cannot occur.) -/
def createPiece (t : PieceType) : Piece :=
  { type := t
    shape := pieceShape t
    color := pieceColor t
    gridX := (pieceSpawn t).1
    gridY := (pieceSpawn t).2
    rotation := 0
    upMovesUsed := 0
    generation := none }

/-! ## Physics (`physics-pure.js`)

A board cell is `null` or a color string; a board is a 20-row list of
10-cell rows.  Cells are addressed `board[y][x]`. -/

def Board := List (List (Option String))
  deriving DecidableEq

instance : Repr Board := inferInstanceAs (Repr (List (List (Option String))))

def emptyBoard : Board := List.replicate 20 (List.replicate 10 none)

/-- `board[y][x]` for coordinates already checked to be in bounds. -/
def cellAt (board : Board) (y x : Int) : Option String :=
  (board.getD y.toNat []).getD x.toNat none

/-- `canPieceFitAt(board, piece, x, y)` — the single collision predicate.
The `.every((row, dy) => row.every((cell, dx) => ...))` loops are rendered
as `List.all` over index ranges with `getD` element access. -/
def canPieceFitAt (board : Board) (piece : Piece) (x y : Int) : Bool :=
  (List.range piece.shape.length).all fun dy =>
    (List.range (piece.shape.getD dy []).length).all fun dx =>
      let cell := (piece.shape.getD dy []).getD dx false
      if !cell then true
      else
        let boardX := x + dx
        let boardY := y + dy
        if boardX < 0 ∨ 10 ≤ boardX then false
        else if boardY < 0 then true
        else if 20 ≤ boardY then false
        else decide (cellAt board boardY boardX = none)

/-- Loop body of `calculateShadow`: keep descending while
`shadowY < 20 && canPieceFitAt(board, piece, piece.gridX, shadowY + 1)`. -/
def shadowFrom (board : Board) (piece : Piece) (shadowY : Int) : Int :=
  if shadowY < 20 && canPieceFitAt board piece piece.gridX (shadowY + 1) then
    shadowFrom board piece (shadowY + 1)
  else shadowY
termination_by (20 - shadowY).toNat
decreasing_by
  simp only [Bool.and_eq_true, decide_eq_true_eq] at *
  omega

/-- `calculateShadow(board, piece)`. -/
def calculateShadow (board : Board) (piece : Piece) : Int :=
  shadowFrom board piece piece.gridY

/-- `rotatePiece(piece, direction)`: builds the transposed/mirrored n×n
matrix and advances the rotation index `(rotation + direction + 4) % 4`. -/
def rotatePiece (piece : Piece) (direction : Int) : Piece :=
  let n := piece.shape.length
  let rotated := (List.range n).map fun i => (List.range n).map fun j =>
    if direction = 1 then (piece.shape.getD (n - 1 - j) []).getD i false
    else (piece.shape.getD j []).getD (n - 1 - i) false
  { piece with
      shape := rotated
      rotation := (piece.rotation + direction + 4).tmod 4 }

/-- One wall-kick offset. -/
structure Kick where
  x : Int
  y : Int
  deriving DecidableEq, Repr

/-- `getWallKicks(piece, direction)`: the `I`-piece table and the shared
`default` table, keyed by `fromRot -> toRot`; an unknown key yields `[]`. -/
def getWallKicks (piece : Piece) (direction : Int) : List Kick :=
  let fromRot := piece.rotation
  let toRot := (piece.rotation + direction + 4).tmod 4
  if piece.type = .I then
    if fromRot = 0 ∧ toRot = 1 then [⟨-2,0⟩, ⟨1,0⟩, ⟨-2,-1⟩, ⟨1,2⟩]
    else if fromRot = 1 ∧ toRot = 0 then [⟨2,0⟩, ⟨-1,0⟩, ⟨2,1⟩, ⟨-1,-2⟩]
    else if fromRot = 1 ∧ toRot = 2 then [⟨-1,0⟩, ⟨2,0⟩, ⟨-1,2⟩, ⟨2,-1⟩]
    else if fromRot = 2 ∧ toRot = 1 then [⟨1,0⟩, ⟨-2,0⟩, ⟨1,-2⟩, ⟨-2,1⟩]
    else if fromRot = 2 ∧ toRot = 3 then [⟨2,0⟩, ⟨-1,0⟩, ⟨2,1⟩, ⟨-1,-2⟩]
    else if fromRot = 3 ∧ toRot = 2 then [⟨-2,0⟩, ⟨1,0⟩, ⟨-2,-1⟩, ⟨1,2⟩]
    else if fromRot = 3 ∧ toRot = 0 then [⟨1,0⟩, ⟨-2,0⟩, ⟨1,-2⟩, ⟨-2,1⟩]
    else if fromRot = 0 ∧ toRot = 3 then [⟨-1,0⟩, ⟨2,0⟩, ⟨-1,2⟩, ⟨2,-1⟩]
    else []
  else
    if fromRot = 0 ∧ toRot = 1 then [⟨-1,0⟩, ⟨-1,1⟩, ⟨0,-2⟩, ⟨-1,-2⟩]
    else if fromRot = 1 ∧ toRot = 0 then [⟨1,0⟩, ⟨1,-1⟩, ⟨0,2⟩, ⟨1,2⟩]
    else if fromRot = 1 ∧ toRot = 2 then [⟨1,0⟩, ⟨1,-1⟩, ⟨0,2⟩, ⟨1,2⟩]
    else if fromRot = 2 ∧ toRot = 1 then [⟨-1,0⟩, ⟨-1,1⟩, ⟨0,-2⟩, ⟨-1,-2⟩]
    else if fromRot = 2 ∧ toRot = 3 then [⟨1,0⟩, ⟨1,1⟩, ⟨0,-2⟩, ⟨1,-2⟩]
    else if fromRot = 3 ∧ toRot = 2 then [⟨-1,0⟩, ⟨-1,-1⟩, ⟨0,2⟩, ⟨-1,2⟩]
    else if fromRot = 3 ∧ toRot = 0 then [⟨-1,0⟩, ⟨-1,-1⟩, ⟨0,2⟩, ⟨-1,2⟩]
    else if fromRot = 0 ∧ toRot = 3 then [⟨1,0⟩, ⟨1,1⟩, ⟨0,-2⟩, ⟨1,-2⟩]
    else []

/-- `tryRotation(board, piece, direction)`: base attempt, then (except for
the `O` piece) each wall kick in order. -/
def tryRotation (board : Board) (piece : Piece) (direction : Int) :
    Option Piece :=
  let rotated := rotatePiece piece direction
  if canPieceFitAt board rotated rotated.gridX rotated.gridY then
    some rotated
  else if piece.type = .O then none
  else
    (getWallKicks piece direction).firstM fun kick =>
      let kickX := rotated.gridX + kick.x
      let kickY := rotated.gridY + kick.y
      if canPieceFitAt board rotated kickX kickY then
        some { rotated with gridX := kickX, gridY := kickY }
      else none

/-- Write `v` into `board[y][x]` (both indices in bounds). -/
def setCell (board : Board) (y x : Nat) (v : Option String) : Board :=
  board.set y ((board.getD y []).set x v)

/-- `placePiece(board, piece)`: copy of the board with the piece's color in
every occupied cell whose coordinates are inside the 10×20 grid. -/
def placePiece (board : Board) (piece : Piece) : Board :=
  (List.range piece.shape.length).foldl
    (fun b dy =>
      (List.range (piece.shape.getD dy []).length).foldl
        (fun b dx =>
          if (piece.shape.getD dy []).getD dx false then
            let x := piece.gridX + dx
            let y := piece.gridY + dy
            if 0 ≤ y ∧ y < 20 ∧ 0 ≤ x ∧ x < 10 then
              setCell b y.toNat x.toNat (some piece.color)
            else b
          else b)
        b)
    board

/-- `findClearedLines(board)`: indices of rows with no `null` cell,
in ascending order. -/
def findClearedLines (board : Board) : List Nat :=
  (List.range board.length).filter fun i =>
    (board.getD i []).all fun cell => !(cell = none)

/-- `removeClearedLines(board, lines)`: drop the named rows, then prepend
empty rows until the height is back to 20. -/
def removeClearedLines (board : Board) (lines : List Nat) : Board :=
  let kept := ((List.range board.length).filter (fun i => !(lines.contains i))).map
    fun i => board.getD i []
  List.replicate (20 - kept.length) (List.replicate 10 none) ++ kept

/-- `canSpawn(board, piece)`. -/
def canSpawn (board : Board) (piece : Piece) : Bool :=
  canPieceFitAt board piece piece.gridX piece.gridY

/-! ## Scoring ledger (`scoring-engine.js`)

`simpleHash` loops `hash = ((hash << 5) - hash) + charCode; hash = hash & hash`
over the string.  All bitwise operators coerce to signed 32-bit integers, so
after each step the value is congruent to `31 * previous + charCode`
modulo 2^32; tracking the residue in `[0, 2^32)` is exact.  The final
`Math.abs(hash).toString(16)` maps the signed 32-bit reading of the residue
through absolute value and lowercase hex. -/

def hashResidue (s : String) : Nat :=
  s.toList.foldl (fun h c => (31 * h + c.toNat) % 4294967296) 0

/-- `Math.abs` of the signed-32-bit reading of a residue in `[0, 2^32)`. -/
def signedAbs (r : Nat) : Nat :=
  if r < 2147483648 then r else 4294967296 - r

def simpleHash (s : String) : String :=
  String.mk (Nat.toDigits 16 (signedAbs (hashResidue s)))

/-- A ledger entry.  `metadataJson` holds the `JSON.stringify(metadata)`
text (the only form in which metadata is ever consumed).  The JS
`timestamp` field is never hashed nor validated and is omitted. -/
structure ScoreEvent where
  frame : Int
  type : String
  points : Int
  metadataJson : String
  hash : String
  deriving DecidableEq, Repr

/-- `hashEvent(event, prevHash)`:
hash of `` `${prevHash}|${event.frame}|${event.type}|${event.points}|${JSON.stringify(event.metadata)}` ``. -/
def hashEvent (frame : Int) (type : String) (points : Int)
    (metadataJson : String) (prevHash : String) : String :=
  simpleHash (prevHash ++ "|" ++ toString frame ++ "|" ++ type ++ "|" ++
    toString points ++ "|" ++ metadataJson)

/-- Tournament statistics.  The float-valued fields (`pps`, `apm`,
`efficiency`, `totalTime`) are write-only for every claim and are
omitted; the integer counters are kept. -/
structure ScoringStats where
  piecesPlaced : Int
  linesCleared : Int
  spinBonuses : Int
  perfectClears : Int
  maxCombo : Int
  deriving DecidableEq, Repr

/-- The mutable `ScoringEngine` fields the game logic reads or writes
(replay input/snapshot recording is omitted: nothing modelled here reads
it back). -/
structure ScoringState where
  scoreLedger : List ScoreEvent
  frameCount : Int
  stats : ScoringStats
  deriving DecidableEq, Repr

/-- A fresh `ScoringEngine` (constructor state). -/
def initScoring : ScoringState :=
  { scoreLedger := []
    frameCount := 0
    stats := { piecesPlaced := 0, linesCleared := 0, spinBonuses := 0,
               perfectClears := 0, maxCombo := 0 } }

/-- `addScoreEvent(type, points, metadata)`: link a new event to the chain
whose root is `'0'`. -/
def addScoreEvent (sc : ScoringState) (type : String) (points : Int)
    (metadataJson : String) : ScoringState :=
  let prevHash := match sc.scoreLedger.getLast? with
    | some e => e.hash
    | none => "0"
  let h := hashEvent sc.frameCount type points metadataJson prevHash
  { sc with scoreLedger := sc.scoreLedger ++
      [{ frame := sc.frameCount, type := type, points := points,
         metadataJson := metadataJson, hash := h }] }

/-- `JSON.stringify({ rows })`. -/
def rowsMeta (rows : Int) : String :=
  "\x7b\"rows\":" ++ toString rows ++ "\x7d"

/-- `scoreSoftDrop(rows)`: 1 point per row; returns the points and the
engine with the `SOFT_DROP` event appended. -/
def scoreSoftDrop (sc : ScoringState) (rows : Int) : Int × ScoringState :=
  let points := rows * 1
  (points, addScoreEvent sc "SOFT_DROP" points (rowsMeta rows))

/-- `scoreHardDrop(rows)`: 2 points per row. -/
def scoreHardDrop (sc : ScoringState) (rows : Int) : Int × ScoringState :=
  let points := rows * 2
  (points, addScoreEvent sc "HARD_DROP" points (rowsMeta rows))

/-- `validateScoreLedger` loop: re-derive each event's hash from its
predecessor's stored hash and reject on the first mismatch. -/
def validateLedgerFrom (prevHash : String) : List ScoreEvent → Bool
  | [] => true
  | e :: rest =>
    if hashEvent e.frame e.type e.points e.metadataJson prevHash ≠ e.hash
    then false
    else validateLedgerFrom e.hash rest

/-- `validateScoreLedger()`: chain root `'0'`. -/
def validateScoreLedger (sc : ScoringState) : Bool :=
  validateLedgerFrom "0" sc.scoreLedger

/-- `isPerfectClear(board)`: every cell of every row is `null`. -/
def isPerfectClear (board : Board) : Bool :=
  board.all fun row => row.all fun cell => cell.isNone

/-! ## Game state (`game-state.js`, `game-engine.js`) -/

inductive Phase
  | MENU | FALLING | LOCKING | CLEARING | PAUSED | GAME_OVER
  deriving DecidableEq, Repr

/-- The `lastMove` descriptor objects the engine stores.  Each JS object
shape gets its own constructor. -/
inductive LastMove
  | moveOk (dx dy : Int) (hitBottom : Bool)
  | moveRejected (dx dy : Int) (hitWall hitFloor hitCeiling : Bool)
  | gravityHit
  | rotateMove (direction : Int)
  | hardDropMove
  deriving DecidableEq, Repr

/-- Input actions (`action.type` tags seen by `handleAction`/`handleInput`;
`UNKNOWN` stands for any other tag, which every switch ignores). -/
inductive GameAction
  | UP_PRESSED
  | MOVE (dx dy : Int)
  | ROTATE (direction : Int)
  | HARD_DROP
  | HOLD
  | SPACE
  | ENTER
  | ESCAPE
  | UNKNOWN
  deriving DecidableEq, Repr

/-- The game-mode constants of `GAME_MODES.neonDrop`, the only mode. -/
def modeGravity (level : Int) : Int := max 50 (1000 - (level - 1) * 50)

def modeLockDelay : ℚ := 500

/-- `lockDelay * 1.2` for FLOAT pieces: `500 * 1.2` rounds to exactly
`600.0` in float64. -/
def modeLockDelayFloat : ℚ := 600

def modeMaxLockTime : ℚ := 5000

def modeProgressive : Bool := true

def modePieces : List PieceType :=
  [.I, .J, .L, .O, .S, .T, .Z, .FLOAT, .PLUS, .U, .DOT]

/-- `GameState` (`createInitialState`'s object).  `backToBackCounter` is
*read* by the scoring engine but never initialised or written anywhere, so
it is `none` (JS `undefined`) in every state the program builds; it is
still carried so the scoring code can be rendered faithfully.
`rng` holds the LCG's internal integer state, `scoringEngine` the
`ScoringEngine` instance attached by `startGame`. -/
structure GameState where
  board : Board
  current : Option Piece
  next : Option Piece
  hold : Option Piece
  canHold : Bool
  deathPiece : Option Piece
  phase : Phase
  score : Int
  lines : Int
  level : Int
  combo : Int
  backToBackCounter : Option Int
  lockTimer : ℚ
  totalLockTime : ℚ
  clearTimer : ℚ
  gravityAccumulator : ℚ
  pieces : Int
  startTime : Option Int
  generation : Int
  lastMove : Option LastMove
  clearingLines : List Nat
  rng : Option Int
  scoringEngine : Option ScoringState
  deriving DecidableEq, Repr

/-- `createInitialState()`. -/
def createInitialState : GameState :=
  { board := emptyBoard
    current := none
    next := none
    hold := none
    canHold := true
    deathPiece := none
    phase := .MENU
    score := 0
    lines := 0
    level := 1
    combo := 0
    backToBackCounter := none
    lockTimer := 0
    totalLockTime := 0
    clearTimer := 0
    gravityAccumulator := 0
    pieces := 0
    startTime := none
    generation := 0
    lastMove := none
    clearingLines := []
    rng := none
    scoringEngine := none }

/-! ## RNG sequencer (`game-state.js`) -/

/-- `calculateSkillScore(state)`.  `Date.now()` is the explicit `now`
parameter.  `!state.startTime` is JS-falsy for both a missing start time
and a start time of `0`.  The float arithmetic is modelled exactly in ℚ. -/
def calculateSkillScore (now : Int) (s : GameState) : Int :=
  match s.startTime with
  | none => 0
  | some t =>
    if t = 0 ∨ s.pieces = 0 then 0
    else
      let elapsedSeconds : ℚ := (now - t : Int) / 1000
      let pps : ℚ := (s.pieces : ℚ) / max 1 elapsedSeconds
      let efficiency : ℚ := (s.lines : ℚ) / (s.pieces : ℚ)
      ⌊(s.lines : ℚ) * 2 + pps * 50 + efficiency * 100 + (s.combo : ℚ) * 20⌋

/-- `PIECE_PROGRESSION`. -/
def pieceProgression : List (Int × List PieceType) :=
  [(0, [.I, .O, .T, .L, .FLOAT]),
   (20, [.J]),
   (60, [.S, .Z]),
   (150, [.PLUS]),
   (300, [.U, .DOT])]

/-- `getAvailablePieces(state)`: union of all unlocked tiers. -/
def getAvailablePieces (now : Int) (s : GameState) : List PieceType :=
  if !modeProgressive then modePieces
  else
    let skillScore := calculateSkillScore now s
    (pieceProgression.filter fun tier => skillScore ≥ tier.1).flatMap
      fun tier => tier.2

/-- `Math.floor(weight * 100)` of `PIECE_WEIGHTS` (0.5 for the three named
special kinds, 1.0 otherwise). -/
def weightCount : PieceType → Nat
  | .PLUS => 50
  | .U => 50
  | .DOT => 50
  | _ => 100

/-- `selectWeightedPiece(availablePieces, rng)`.  Returns the chosen kind
together with the advanced RNG state; `none` models the crash on an
out-of-range (`undefined`) array element.  The comparison
`rng.next() < 0.07` is rendered as `< 7/100`: no dyadic rational with
denominator 2^32 lies between `7/100` and the float64 nearest to `0.07`,
so the two comparisons agree on every RNG output. -/
def selectWeightedPiece (avail : List PieceType) (r : Int) :
    Option (PieceType × Int) :=
  let floatDraw : Option Int :=
    if avail.contains PieceType.FLOAT then some (rngStep r) else none
  match floatDraw with
  | some r1 =>
    if (r1 : ℚ) / 4294967296 < 7 / 100 then some (.FLOAT, r1)
    else selectFromWeighted avail r1
  | none => selectFromWeighted avail r
where
  /-- The weighted pool draw shared by both paths (`Random.choice` on the
  replicated array). -/
  selectFromWeighted (avail : List PieceType) (r : Int) :
      Option (PieceType × Int) :=
    let weightedPieces := (avail.filter (fun p => !(p = PieceType.FLOAT))).flatMap
      fun p => List.replicate (weightCount p) p
    let r2 := rngStep r
    let index : Int := ⌊(r2 : ℚ) / 4294967296 * weightedPieces.length⌋
    if index < 0 then none
    else match weightedPieces[index.toNat]? with
      | none => none
      | some p => some (p, r2)

/-- `getNextPiece(state)`: `none` models the `RNG not initialized` /
`No pieces available` throws and the out-of-range draw. -/
def getNextPiece (now : Int) (s : GameState) : Option (Piece × Int) :=
  match s.rng with
  | none => none
  | some r =>
    let availablePieces := getAvailablePieces now s
    if availablePieces.isEmpty then none
    else match selectWeightedPiece availablePieces r with
      | none => none
      | some (t, r') => some (createPiece t, r')

/-! ## Line-clear scoring (`scoring-engine.js`) -/

/-- The four diagonal `SPIN_CORNERS` offsets. -/
def spinCorners : List (Int × Int) := [(-1,-1), (1,-1), (-1,1), (1,1)]

/-- Number of filled corners around the current piece's center, as counted
by `detectSpinBonus`: a corner is filled when out of horizontal bounds, at
or below the floor, or (in bounds, on the board) occupied. -/
def countFilledCorners (board : Board) (p : Piece) : Nat :=
  let centerX := p.gridX + 1
  let centerY := p.gridY + 1
  (spinCorners.filter fun corner =>
    let x := centerX + corner.1
    let y := centerY + corner.2
    if x < 0 ∨ 10 ≤ x ∨ 20 ≤ y then true
    else if 0 ≤ y then !(cellAt board y x).isNone
    else false).length

/-- `detectSpinBonus(state, lastMove)`. -/
def detectSpinBonus (s : GameState) (lastMove : Option LastMove) : Bool :=
  match s.current with
  | none => false
  | some p =>
    if !(p.type = PieceType.T) then false
    else match lastMove with
      | some (.rotateMove _) => 3 ≤ countFilledCorners s.board p
      | _ => false

/-- `JSON.stringify({ multiplier: state.backToBackCounter })`; an
`undefined` value is dropped by `JSON.stringify`. -/
def multiplierMeta : Option Int → String
  | none => "\x7b\x7d"
  | some n => "\x7b\"multiplier\":" ++ toString n ++ "\x7d"

/-- `JSON.stringify({ combo })`. -/
def comboMeta (combo : Int) : String :=
  "\x7b\"combo\":" ++ toString combo ++ "\x7d"

/-- `JSON.stringify({ lines, spinBonus, level })`. -/
def lineClearMeta (lines : Nat) (spinBonus : Bool) (level : Int) : String :=
  "\x7b\"lines\":" ++ toString lines ++ ",\"spinBonus\":" ++
    (if spinBonus then "true" else "false") ++ ",\"level\":" ++
    toString level ++ "\x7d"

/-- `scoreLineClears(state, linesCleared, lastMove)`: spin-bonus or normal
base table, back-to-back, combo and perfect-clear bonuses, each logged,
with the `LINE_CLEAR` event appended last.  Returns the aggregate score
and the updated engine.  With a spin bonus and `linesCleared = 0` the JS
base-table access is `[...][-1] = undefined` and the returned score is
`NaN`; that poisoned outcome is modelled as `none`. -/
def scoreLineClears (sc : ScoringState) (s : GameState) (linesCleared : Nat)
    (lastMove : Option LastMove) : Option (Int × ScoringState) :=
  let level := s.level
  let hasSpinBonus := detectSpinBonus s lastMove
  if hasSpinBonus ∧ linesCleared = 0 then none
  else
    let baseScore : Int :=
      if hasSpinBonus then [400, 800, 1200, 1600].getD (min (linesCleared - 1) 3) 0
      else [0, 100, 300, 500, 800].getD (min linesCleared 4) 0
    let sc := if hasSpinBonus then
        { sc with stats := { sc.stats with spinBonuses := sc.stats.spinBonuses + 1 } }
      else sc
    let score := baseScore * level
    let isDifficult := linesCleared = 4 ∨ hasSpinBonus
    -- `state.backToBackCounter > 0`: the field is `undefined` in every
    -- state the program builds, and `undefined > 0` is false.
    let b2bPositive : Bool := match s.backToBackCounter with
      | some n => 0 < n
      | none => false
    let afterB2b : Int × ScoringState :=
      if isDifficult ∧ b2bPositive then
        let b2bBonus := ⌊(baseScore : ℚ) * (1 / 2)⌋ * level
        (score + b2bBonus,
         addScoreEvent sc "BACK_TO_BACK" b2bBonus (multiplierMeta s.backToBackCounter))
      else (score, sc)
    let afterCombo : Int × ScoringState :=
      if 1 < s.combo then
        let comboBonus := 50 * s.combo * level
        let sc2 := addScoreEvent afterB2b.2 "COMBO" comboBonus (comboMeta s.combo)
        (afterB2b.1 + comboBonus,
         { sc2 with stats := { sc2.stats with maxCombo := max sc2.stats.maxCombo s.combo } })
      else afterB2b
    let afterPerfect : Int × ScoringState :=
      if isPerfectClear s.board then
        let perfectBonus := [0, 800, 1200, 1800, 2000].getD (min linesCleared 4) 0 * level
        let sc3 := addScoreEvent afterCombo.2 "PERFECT_CLEAR" perfectBonus "\x7b\x7d"
        (afterCombo.1 + perfectBonus,
         { sc3 with stats := { sc3.stats with perfectClears := sc3.stats.perfectClears + 1 } })
      else afterCombo
    let scFinal := addScoreEvent afterPerfect.2 "LINE_CLEAR" (baseScore * level)
      (lineClearMeta linesCleared hasSpinBonus level)
    some (afterPerfect.1,
      { scFinal with stats :=
          { scFinal.stats with linesCleared := scFinal.stats.linesCleared + linesCleared } })

/-- `updateStats(state)`: the only integer-valued update is
`piecesPlaced = state.pieces || 0` (identical to `state.pieces` for every
integer); the float statistics are omitted. -/
def updateStats (sc : ScoringState) (pieces : Int) : ScoringState :=
  { sc with stats := { sc.stats with piecesPlaced := pieces } }

/-! ## State machine (`game-engine.js`) -/

/-- `gameOver(state)`: `finalizeGame` runs `updateStats(state)` (its other
effects touch only the replay object, which nothing modelled here reads);
then current and next are cleared and the phase becomes GAME_OVER. -/
def gameOver (s : GameState) : GameState :=
  let s := match s.scoringEngine with
    | some sc => { s with scoringEngine := some (updateStats sc s.pieces) }
    | none => s
  { s with phase := .GAME_OVER, current := none, next := none }

/-- `spawnNextPiece(state)`: promote `next` (fresh generation id, reset
up-move counter), end the game if it cannot spawn, otherwise request a new
`next` from the RNG sequencer.  `none` models the crash when `next` is
absent (spreading `null` yields a shapeless piece) or the sequencer
throws. -/
def spawnNextPiece (now : Int) (s : GameState) : Option GameState :=
  if s.phase = .GAME_OVER then some s
  else match s.next with
    | none => none
    | some nxt =>
      let newPiece := { nxt with generation := some (s.generation + 1),
                                 upMovesUsed := 0 }
      if !canSpawn s.board newPiece then some (gameOver s)
      else match getNextPiece now s with
        | none => none
        | some (nextPiece, r') =>
          some { s with current := some newPiece, next := some nextPiece,
                        pieces := s.pieces + 1, phase := .FALLING,
                        generation := s.generation + 1, rng := some r' }

/-- `lockPiece(state)`: a piece still above the visible board ends the
game (death-piece snapshot kept); otherwise place it, update stats,
detect cleared lines and either enter CLEARING or spawn immediately.
(The particle hand-off built in the clearing branch is render-only.) -/
def lockPiece (now : Int) (s : GameState) : Option GameState :=
  match s.current with
  | none => none
  | some cur =>
    if cur.gridY < 0 then
      let newBoard := placePiece s.board cur
      some (gameOver { s with board := newBoard, deathPiece := some cur })
    else
      let newBoard := placePiece s.board cur
      let clearedLines := findClearedLines newBoard
      let s := match s.scoringEngine with
        | some sc => { s with scoringEngine := some (updateStats sc (s.pieces + 1)) }
        | none => s
      if 0 < clearedLines.length then
        some { s with board := newBoard, current := none, phase := .CLEARING,
                      clearTimer := 0, clearingLines := clearedLines,
                      canHold := true }
      else
        spawnNextPiece now { s with board := newBoard, current := none,
                                    canHold := true, pieces := s.pieces + 1 }

/-- `finishClearing(state)`: compact the board, update lines/level, add
the line-clear score and combo (note: `scoreLineClears` receives the *old*
state, whose board still contains the rows being removed), then spawn. -/
def finishClearing (now : Int) (s : GameState) : Option GameState :=
  let newBoard := removeClearedLines s.board s.clearingLines
  let linesCleared := s.clearingLines.length
  let st1 := { s with board := newBoard, clearingLines := [],
                      lines := s.lines + linesCleared,
                      level := ⌊((s.lines + linesCleared : Int) : ℚ) / 10⌋ + 1 }
  match s.scoringEngine with
  | some sc =>
    match scoreLineClears sc s linesCleared s.lastMove with
    | none => none
    | some (points, sc') =>
      spawnNextPiece now { st1 with score := st1.score + points,
                                    combo := if 0 < linesCleared then s.combo + 1 else 0,
                                    scoringEngine := some sc' }
  | none => spawnNextPiece now st1

/-- `processFalling(state, deltaTime)`. -/
def processFalling (dt : ℚ) (s : GameState) : GameState :=
  match s.current with
  | none => { s with phase := .GAME_OVER }
  | some cur =>
    let newAccumulator := s.gravityAccumulator + dt
    let gravityDelay : ℚ := (modeGravity s.level : Int)
    if gravityDelay ≤ newAccumulator then
      if canPieceFitAt s.board cur cur.gridX (cur.gridY + 1) then
        let newPiece := { cur with gridY := cur.gridY + 1 }
        let shadowY := calculateShadow s.board newPiece
        let justHitShadow := newPiece.gridY = shadowY ∧ cur.gridY ≠ shadowY
        { s with current := some newPiece, gravityAccumulator := 0,
                 lastMove := if justHitShadow then some .gravityHit else s.lastMove }
      else
        { s with phase := .LOCKING, lockTimer := 0, totalLockTime := 0,
                 gravityAccumulator := 0 }
    else { s with gravityAccumulator := newAccumulator }

/-- `processLocking(state, deltaTime)`: `none` models the `null`
dereference when no current piece exists. -/
def processLocking (now : Int) (dt : ℚ) (s : GameState) : Option GameState :=
  match s.current with
  | none => none
  | some cur =>
    let newLockTimer := s.lockTimer + dt
    let newTotalLockTime := s.totalLockTime + dt
    if canPieceFitAt s.board cur cur.gridX (cur.gridY + 1) then
      some { s with phase := .FALLING, lockTimer := 0, totalLockTime := 0 }
    else if modeMaxLockTime ≤ newTotalLockTime then
      lockPiece now s
    else
      let lockDelay := if cur.type = .FLOAT then modeLockDelayFloat else modeLockDelay
      if lockDelay ≤ newLockTimer then lockPiece now s
      else some { s with lockTimer := newLockTimer, totalLockTime := newTotalLockTime }

/-- `processClearing(state, deltaTime)`: 300 ms clear animation. -/
def processClearing (now : Int) (dt : ℚ) (s : GameState) : Option GameState :=
  let newClearTimer := s.clearTimer + dt
  if (300 : ℚ) ≤ newClearTimer then finishClearing now s
  else some { s with clearTimer := newClearTimer }

/-- `tick(state, deltaTime)`: no-op in MENU/PAUSED/GAME_OVER, otherwise
phase dispatch.  (The particle update is render-only and omitted.) -/
def tick (now : Int) (dt : ℚ) (s : GameState) : Option GameState :=
  match s.phase with
  | .MENU | .PAUSED | .GAME_OVER => some s
  | .FALLING => some (processFalling dt s)
  | .LOCKING => processLocking now dt s
  | .CLEARING => processClearing now dt s

/-- The trailing scoring step of `executeMove`:
`if (state.scoringEngine && dy > 0) newState.score += scoreSoftDrop(dy)`.
`s` is the pre-move state (whose engine is consulted), `st` the updated
state. -/
def softDropScore (s : GameState) (dy : Int) (st : GameState) :
    Option GameState :=
  match s.scoringEngine with
  | some sc =>
    if 0 < dy then
      let (points, sc') := scoreSoftDrop sc dy
      some { st with score := st.score + points, scoringEngine := some sc' }
    else some st
  | none => some st

/-- `executeMove(state, newX, newY, dx, dy)`.  In the branch taken when a
piece in LOCKING phase becomes able to fall, the source reads the
undefined identifier `piece` (`if (piece.type === 'FLOAT' ...)`), raising a
`ReferenceError`; that crash is modelled as `none`. -/
def executeMove (s : GameState) (newX newY dx dy : Int) : Option GameState :=
  match s.current with
  | none => none
  | some cur =>
    let newUpMoves := if cur.type = .FLOAT ∧ dy < 0 then cur.upMovesUsed + 1
                      else cur.upMovesUsed
    let movedPiece :=
      { cur with gridX := newX, gridY := newY, upMovesUsed := newUpMoves }
    let hitBottom := 0 < dy ∧
      ¬canPieceFitAt s.board movedPiece movedPiece.gridX (movedPiece.gridY + 1)
    let st1 := { s with current := some movedPiece,
                        lastMove := some (.moveOk dx dy hitBottom) }
    let st2 := if dy ≠ 0 then { st1 with gravityAccumulator := 0 } else st1
    let canFall := canPieceFitAt s.board movedPiece movedPiece.gridX (movedPiece.gridY + 1)
    if ¬canFall ∧ s.phase = .FALLING then
      softDropScore s dy { st2 with phase := .LOCKING, lockTimer := 0 }
    else if canFall ∧ s.phase = .LOCKING then
      none
    else if s.phase = .LOCKING then
      softDropScore s dy { st2 with lockTimer := 0 }
    else softDropScore s dy st2

/-- `move(state, dx, dy)`: exact target first, then the FLOAT drift
allowance one row lower, otherwise feedback in `lastMove` only. -/
def move (s : GameState) (dx dy : Int) : Option GameState :=
  match s.current with
  | none => none
  | some piece =>
    let targetX := piece.gridX + dx
    let targetY := piece.gridY + dy
    if canPieceFitAt s.board piece targetX targetY then
      executeMove s targetX targetY dx dy
    else
      let drift : Option (Int × Int) :=
        if piece.type = .FLOAT ∧ dx ≠ 0 ∧ dy = 0 then
          let altY := targetY + 1
          if altY < 20 ∧ canPieceFitAt s.board piece targetX altY then
            some (targetX, altY)
          else none
        else none
      match drift with
      | some (ax, ay) => executeMove s ax ay dx 1
      | none =>
        some { s with lastMove := some (.moveRejected dx dy
                 (decide (dx ≠ 0)) (decide (0 < dy)) (decide (dy < 0))) }

/-- `rotate(state, direction)`: delegate to `tryRotation`; on failure the
state is returned unchanged. -/
def rotate (s : GameState) (direction : Int) : Option GameState :=
  match s.current with
  | none => none
  | some cur =>
    match tryRotation s.board cur direction with
    | none => some s
    | some newPiece =>
      let st1 := { s with current := some newPiece,
                          lastMove := some (.rotateMove direction) }
      let canFall := canPieceFitAt s.board newPiece newPiece.gridX (newPiece.gridY + 1)
      if ¬canFall ∧ s.phase = .FALLING then
        some { st1 with phase := .LOCKING, lockTimer := 0 }
      else if canFall ∧ s.phase = .LOCKING then
        some { st1 with phase := .FALLING, lockTimer := 0 }
      else if s.phase = .LOCKING then
        some { st1 with lockTimer := 0 }
      else some st1

/-- `hardDrop(state)`: project to the shadow row, score the distance,
lock immediately. -/
def hardDrop (now : Int) (s : GameState) : Option GameState :=
  match s.current with
  | none => none
  | some cur =>
    let shadowY := calculateShadow s.board cur
    let dropDistance := shadowY - cur.gridY
    let droppedPiece := { cur with gridY := shadowY }
    let st1 := { s with current := some droppedPiece,
                        lastMove := some .hardDropMove }
    let st2 := match s.scoringEngine with
      | some sc =>
        if 0 < dropDistance then
          let (points, sc') := scoreHardDrop sc dropDistance
          { st1 with score := st1.score + points, scoringEngine := some sc' }
        else st1
      | none => st1
    lockPiece now st2

/-- `tryHold(state)`: swap with the held piece (or with next when nothing
is held yet), resetting both to spawn pose; disabled until the next lock. -/
def tryHold (now : Int) (s : GameState) : Option GameState :=
  match s.current with
  | none => some s
  | some cur =>
    if !s.canHold then some s
    else
      let newCurrent? := match s.hold with
        | some h => some h
        | none => s.next
      match newCurrent? with
      | none => none
      | some newCurrent =>
        let heldPiece := createPiece cur.type
        let activePiece := { createPiece newCurrent.type with
          generation := some (s.generation + 1), upMovesUsed := 0 }
        match s.hold with
        | some _ =>
          some { s with current := some activePiece, hold := some heldPiece,
                        canHold := false, phase := .FALLING,
                        generation := s.generation + 1 }
        | none =>
          match getNextPiece now s with
          | none => none
          | some (np, r') =>
            some { s with current := some activePiece, hold := some heldPiece,
                          next := some np, canHold := false, phase := .FALLING,
                          generation := s.generation + 1, rng := some r' }

/-- `handleInput(state, action)`: only in FALLING/LOCKING with a current
piece; dispatch on the action tag, every unknown tag is ignored. -/
def handleInput (now : Int) (a : GameAction) (s : GameState) :
    Option GameState :=
  if ¬(s.phase = .FALLING ∨ s.phase = .LOCKING) then some s
  else match s.current with
    | none => some s
    | some cur =>
      match a with
      | .UP_PRESSED =>
        if cur.type = .FLOAT ∧ cur.upMovesUsed < 7 then move s 0 (-1)
        else rotate s 1
      | .MOVE dx dy => move s dx dy
      | .ROTATE direction => rotate s direction
      | .HARD_DROP => hardDrop now s
      | .HOLD => tryHold now s
      | _ => some s

/-- `startGame(state)`: ignored during an active phase; otherwise build a
fresh scoring engine, seed the RNG (`state.rng || createRNG(Date.now())`),
draw current and next and reset all counters. -/
def startGame (now : Int) (s : GameState) : Option GameState :=
  if s.phase = .FALLING ∨ s.phase = .LOCKING ∨ s.phase = .CLEARING then some s
  else
    let r0 : Int := match s.rng with
      | some r => r
      | none => now
    match getNextPiece now { s with rng := some r0 } with
    | none => none
    | some (firstPiece, r1) =>
      match getNextPiece now { s with rng := some r1 } with
      | none => none
      | some (nextPiece, r2) =>
        let startPiece :=
          { firstPiece with generation := some (1 : Int), upMovesUsed := 0 }
        some { s with board := emptyBoard, phase := .FALLING,
                      current := some startPiece,
                      next := some nextPiece,
                      score := 0, lines := 0, level := 1, pieces := 1,
                      combo := 0, generation := 1,
                      scoringEngine := some initScoring, rng := some r2,
                      gravityAccumulator := 0, startTime := some now }

/-- `main.js handleAction(action)`: the phase-keyed dispatcher that starts
the game from MENU, pauses/resumes (the PAUSED transitions), forwards
gameplay input (SPACE becomes HARD_DROP) and restarts from GAME_OVER. -/
def handleAction (now : Int) (a : GameAction) (s : GameState) :
    Option GameState :=
  match s.phase with
  | .MENU =>
    if a = .SPACE ∨ a = .ENTER then startGame now s else some s
  | .FALLING | .LOCKING =>
    if a = .ESCAPE then some { s with phase := .PAUSED }
    else if a = .SPACE then handleInput now .HARD_DROP s
    else handleInput now a s
  | .PAUSED =>
    if a = .ESCAPE ∨ a = .SPACE ∨ a = .ENTER then
      some { s with phase := .FALLING }
    else some s
  | .GAME_OVER =>
    if a = .SPACE ∨ a = .ENTER ∨ a = .ESCAPE then some createInitialState
    else some s
  | .CLEARING => some s

/-- States reachable from the initial state through the driver: ticks and
`handleAction` dispatches (which cover `startGame`, gameplay input, the
pause/resume transitions and the restart). -/
inductive Reachable : GameState → Prop
  | init : Reachable createInitialState
  | tick (now : Int) (dt : ℚ) (s s' : GameState) :
      Reachable s → tick now dt s = some s' → Reachable s'
  | act (now : Int) (a : GameAction) (s s' : GameState) :
      Reachable s → handleAction now a s = some s' → Reachable s'

/-! ## Helper lemmas -/

/-- `getD` with an in-range index is plain indexing. -/
lemma getD_of_lt {α : Type _} (l : List α) (i : Nat) (d : α)
    (h : i < l.length) : l.getD i d = l[i] := by
  simp [List.getD_eq_getElem?_getD, List.getElem?_eq_getElem h]

/-- `getD` on a map over `List.range`. -/
lemma getD_range_map {α : Type _} {n : Nat} (f : Nat → α) (i : Nat)
    (h : i < n) (d : α) : ((List.range n).map f).getD i d = f i := by
  rw [List.getD_eq_getElem?_getD, List.getElem?_map]
  simp [List.getElem?_range h]

/-! ## C9 — LCG outputs and state advance -/

/-- From a seed in `[0, 2^32)` every later internal state stays in
`[0, 2^32)`. -/
lemma rngState_bounds {seed : Int} (h0 : 0 ≤ seed) (h1 : seed < 4294967296) :
    ∀ n, 0 ≤ rngState seed n ∧ rngState seed n < 4294967296
  | 0 => ⟨h0, h1⟩
  | n + 1 => by
    have prev := rngState_bounds h0 h1 n
    refine ⟨Int.tmod_nonneg _ (by nlinarith [prev.1]), ?_⟩
    exact Int.tmod_lt_of_pos _ (by norm_num)

/-- C9 (counterexample): with the integer seed `-4294967296`, the very
first value returned by `next()` is negative — JavaScript's `%` takes the
sign of the dividend, so the output lies outside `[0, 1)`, contradicting
the claim for arbitrary integer seeds. -/
theorem rng_negative_seed_escapes_unit_interval :
    rngOutput (-4294967296) 0 < 0 := by
  decide

/-- C9 (amended): for every seed in `[0, 2^32)` (the range in which the
generator is used and JS float arithmetic is exact), each internal state
stays in `[0, 2^32)`, the state advances by
`state * 1664525 + 1013904223 (mod 2^32)` in exact integer arithmetic,
and every output of `next()` lies in `[0, 1)`. -/
theorem rng_nonneg_seed_outputs_in_unit_interval (seed : Int)
    (h0 : 0 ≤ seed) (h1 : seed < 4294967296) (n : Nat) :
    (0 ≤ rngState seed (n + 1) ∧ rngState seed (n + 1) < 4294967296) ∧
    rngState seed (n + 1) =
      (rngState seed n * 1664525 + 1013904223) % 4294967296 ∧
    0 ≤ rngOutput seed n ∧ rngOutput seed n < 1 := by
  have hb := rngState_bounds h0 h1
  refine ⟨hb (n + 1), ?_, ?_, ?_⟩
  · show rngStep _ = _
    unfold rngStep
    exact Int.tmod_eq_emod (by nlinarith [(hb n).1]) (by norm_num)
  · unfold rngOutput
    have := (hb (n + 1)).1
    positivity
  · unfold rngOutput
    rw [div_lt_one (by norm_num)]
    exact_mod_cast (hb (n + 1)).2

/-- C9 witness: the amended theorem instantiated at seed 3, first output. -/
theorem rng_nonneg_seed_outputs_in_unit_interval_witness :
    (0 : Int) ≤ 3 ∧ (3 : Int) < 4294967296 ∧
      (0 ≤ rngOutput 3 0 ∧ rngOutput 3 0 < 1) :=
  ⟨by norm_num, by norm_num,
    (rng_nonneg_seed_outputs_in_unit_interval 3 (by norm_num) (by norm_num) 0).2.2⟩

/-! ## C7 — rotation inverses -/

/-- Componentwise extensionality for `Piece`. -/
lemma piece_ext {a b : Piece} (ht : a.type = b.type) (hs : a.shape = b.shape)
    (hc : a.color = b.color) (hx : a.gridX = b.gridX) (hy : a.gridY = b.gridY)
    (hr : a.rotation = b.rotation) (hu : a.upMovesUsed = b.upMovesUsed)
    (hg : a.generation = b.generation) : a = b := by
  cases a; cases b; simp_all

/-- Shape part of the rotation round trip: for a square shape matrix,
applying `rotatePiece`'s matrix transform with direction `+1` and then
with `-1` (in either order) restores the matrix. -/
lemma rotate_rotate_shape (p : Piece)
    (hsq : ∀ row ∈ p.shape, row.length = p.shape.length)
    {d₁ d₂ : Int} (hd : d₁ = 1 ∧ d₂ ≠ 1 ∨ d₁ ≠ 1 ∧ d₂ = 1) :
    (rotatePiece (rotatePiece p d₁) d₂).shape = p.shape := by
  simp only [rotatePiece, List.length_map, List.length_range]
  apply List.ext_getElem (by simp)
  intro i hi hi'
  have hin : i < p.shape.length := by simpa using hi
  rw [List.getElem_map, List.getElem_range]
  apply List.ext_getElem
    (by simpa using (hsq _ (List.getElem_mem hi')).symm)
  intro j hj hj'
  have hjn : j < p.shape.length := by simpa using hj
  rw [List.getElem_map, List.getElem_range]
  have hcell : (p.shape.getD i []).getD j false = p.shape[i][j] := by
    rw [getD_of_lt p.shape i [] hi',
      getD_of_lt _ _ _ (by rw [hsq _ (List.getElem_mem hi')]; exact hjn)]
  have hval : ∀ a b : Nat, a < p.shape.length → b < p.shape.length →
      ((((List.range p.shape.length).map fun i2 =>
          (List.range p.shape.length).map fun j2 =>
            if d₁ = 1 then (p.shape.getD (p.shape.length - 1 - j2) []).getD i2 false
            else (p.shape.getD j2 []).getD (p.shape.length - 1 - i2) false).getD a []).getD
        b false) =
        if d₁ = 1 then (p.shape.getD (p.shape.length - 1 - b) []).getD a false
        else (p.shape.getD b []).getD (p.shape.length - 1 - a) false := by
    intro a b ha hb
    rw [getD_range_map _ a ha, getD_range_map _ b hb]
  rcases hd with ⟨hd₁, hd₂⟩ | ⟨hd₁, hd₂⟩
  · rw [if_neg hd₂, hval j (p.shape.length - 1 - i) hjn (by omega), if_pos hd₁]
    have harith : p.shape.length - 1 - (p.shape.length - 1 - i) = i := by omega
    rw [harith, hcell]
  · rw [if_pos hd₂, hval (p.shape.length - 1 - j) i (by omega) hin, if_neg hd₁]
    have harith : p.shape.length - 1 - (p.shape.length - 1 - j) = j := by omega
    rw [harith, hcell]

/-- Rotation-index part of the round trip, `+1` then `-1`. -/
lemma tmod_rotation_roundtrip_pm (r : Int) (h0 : 0 ≤ r) (h3 : r < 4) :
    ((r + 1 + 4).tmod 4 + -1 + 4).tmod 4 = r := by
  interval_cases r <;> decide

/-- Rotation-index part of the round trip, `-1` then `+1`. -/
lemma tmod_rotation_roundtrip_mp (r : Int) (h0 : 0 ≤ r) (h3 : r < 4) :
    ((r + -1 + 4).tmod 4 + 1 + 4).tmod 4 = r := by
  interval_cases r <;> decide

/-- C7 (confirmed): for every piece with a square shape matrix and
rotation index in 0–3, `rotatePiece` by `+1` then `-1` — and by `-1` then
`+1` — restores both the shape matrix and the rotation index (and, being
a pure shape/rotation transform, every other field). -/
theorem rotate_then_unrotate_restores_piece (p : Piece)
    (hsq : ∀ row ∈ p.shape, row.length = p.shape.length)
    (h0 : 0 ≤ p.rotation) (h3 : p.rotation < 4) :
    rotatePiece (rotatePiece p 1) (-1) = p ∧
    rotatePiece (rotatePiece p (-1)) 1 = p := by
  constructor
  · refine piece_ext rfl (rotate_rotate_shape p hsq (Or.inl ⟨rfl, by norm_num⟩))
      rfl rfl rfl ?_ rfl rfl
    exact tmod_rotation_roundtrip_pm p.rotation h0 h3
  · refine piece_ext rfl (rotate_rotate_shape p hsq (Or.inr ⟨by norm_num, rfl⟩))
      rfl rfl rfl ?_ rfl rfl
    exact tmod_rotation_roundtrip_mp p.rotation h0 h3

/-- C7 witness: the round trip evaluated on the freshly spawned T piece. -/
theorem rotate_then_unrotate_restores_piece_witness :
    rotatePiece (rotatePiece (createPiece .T) 1) (-1) = createPiece .T ∧
    rotatePiece (rotatePiece (createPiece .T) (-1)) 1 = createPiece .T :=
  rotate_then_unrotate_restores_piece (createPiece .T) (by decide)
    (by decide) (by decide)

/-! ## C1 — seed determinism vs. wall-clock-dependent piece selection -/

/-- A mid-game state: one piece placed, game started at wall-clock 1000 ms,
RNG state 6. -/
def c1State : GameState :=
  { createInitialState with rng := some 6, pieces := 1, startTime := some 1000 }

/-- C1 (counterexample): evaluating `getNextPiece` on the same state (same
seed, same RNG state) at wall-clock 2000 ms versus 11000 ms yields
different piece kinds (J versus L): `calculateSkillScore` reads
`Date.now()`, so elapsed real time changes the unlocked tier set and with
it the selected piece.  Wall-clock time does influence piece selection. -/
theorem piece_selection_depends_on_wall_clock :
    getNextPiece 2000 c1State ≠ getNextPiece 11000 c1State := by
  set_option maxRecDepth 40000 in decide

/-- C1 (amended): the RNG itself is a pure function of its integer state
(`rngStep`/`rngOutput` mention no clock), and piece selection depends on
the wall clock only through the skill score: whenever two instants give
the same `calculateSkillScore`, `getNextPiece` returns identical pieces
and identical RNG states. -/
theorem piece_selection_deterministic_given_skill (now₁ now₂ : Int)
    (s : GameState)
    (h : calculateSkillScore now₁ s = calculateSkillScore now₂ s) :
    getNextPiece now₁ s = getNextPiece now₂ s := by
  unfold getNextPiece getAvailablePieces
  rw [h]

/-- C1 witness: instantiated at a fresh-session state (no start time, so
both skill scores are 0) and two different instants. -/
theorem piece_selection_deterministic_given_skill_witness :
    calculateSkillScore 5 { createInitialState with rng := some 0 } =
      calculateSkillScore 99 { createInitialState with rng := some 0 } ∧
    getNextPiece 5 { createInitialState with rng := some 0 } =
      getNextPiece 99 { createInitialState with rng := some 0 } :=
  ⟨by decide, piece_selection_deterministic_given_skill 5 99 _ (by decide)⟩

/-! ## C5 — boundary behaviour of the fit test -/

/-- Characterisation of `canPieceFitAt`: it is `true` exactly when every
occupied sub-cell lands in a column of `[0,10)` and either above the board
or on an empty in-bounds cell. -/
lemma canPieceFitAt_iff (board : Board) (p : Piece) (x y : Int) :
    canPieceFitAt board p x y = true ↔
      ∀ dy : Nat, dy < p.shape.length →
        ∀ dx : Nat, dx < (p.shape.getD dy []).length →
          (p.shape.getD dy []).getD dx false = true →
            0 ≤ x + dx ∧ x + dx < 10 ∧
              (y + dy < 0 ∨ (y + dy < 20 ∧ cellAt board (y + dy) (x + dx) = none)) := by
  unfold canPieceFitAt
  simp only [List.all_eq_true, List.mem_range]
  constructor
  · intro h dy hdy dx hdx hc
    have h2 := h dy hdy dx hdx
    simp only [hc, Bool.not_true, Bool.false_eq_true, if_false] at h2
    by_cases hxb : x + (dx : Int) < 0 ∨ (10 : Int) ≤ x + (dx : Int)
    · rw [if_pos hxb] at h2
      simp at h2
    · rw [if_neg hxb] at h2
      push_neg at hxb
      by_cases hyneg : y + (dy : Int) < 0
      · exact ⟨hxb.1, hxb.2, Or.inl hyneg⟩
      · rw [if_neg hyneg] at h2
        by_cases hyfloor : (20 : Int) ≤ y + (dy : Int)
        · rw [if_pos hyfloor] at h2
          simp at h2
        · rw [if_neg hyfloor] at h2
          exact ⟨hxb.1, hxb.2, Or.inr ⟨by omega, of_decide_eq_true h2⟩⟩
  · intro h dy hdy dx hdx
    cases hcell : (p.shape.getD dy []).getD dx false
    · simp [hcell]
    · obtain ⟨h1, h2, h3⟩ := h dy hdy dx hdx hcell
      simp only [hcell, Bool.not_true, Bool.false_eq_true, if_false]
      rw [if_neg (show ¬(x + (dx : Int) < 0 ∨ (10 : Int) ≤ x + (dx : Int)) by omega)]
      rcases h3 with h3 | ⟨h3, h4⟩
      · rw [if_pos h3]
      · by_cases hy : y + (dy : Int) < 0
        · rw [if_pos hy]
        · rw [if_neg hy,
            if_neg (show ¬((20 : Int) ≤ y + (dy : Int)) by omega)]
          simpa using h4

/-- C5 (confirmed): the fit test is false whenever some occupied sub-cell
maps outside columns `[0,10)` or to a row `≥ 20`; it is true whenever
every occupied sub-cell is in-column and above the visible board (rows
`y < 0` never cause rejection); and an occupied sub-cell mapping onto a
non-empty in-bounds board cell forces rejection. -/
theorem fit_test_boundary_behaviour (board : Board) (p : Piece) (x y : Int) :
    ((∃ dy : Nat, dy < p.shape.length ∧ ∃ dx : Nat,
        dx < (p.shape.getD dy []).length ∧
        (p.shape.getD dy []).getD dx false = true ∧
        (x + dx < 0 ∨ 10 ≤ x + dx ∨ 20 ≤ y + dy)) →
      canPieceFitAt board p x y = false) ∧
    ((∀ dy : Nat, dy < p.shape.length →
        ∀ dx : Nat, dx < (p.shape.getD dy []).length →
          (p.shape.getD dy []).getD dx false = true →
            0 ≤ x + dx ∧ x + dx < 10 ∧ y + dy < 0) →
      canPieceFitAt board p x y = true) ∧
    ((∃ dy : Nat, dy < p.shape.length ∧ ∃ dx : Nat,
        dx < (p.shape.getD dy []).length ∧
        (p.shape.getD dy []).getD dx false = true ∧
        0 ≤ x + dx ∧ x + dx < 10 ∧ 0 ≤ y + dy ∧ y + dy < 20 ∧
        cellAt board (y + dy) (x + dx) ≠ none) →
      canPieceFitAt board p x y = false) := by
  refine ⟨?_, ?_, ?_⟩
  · rintro ⟨dy, hdy, dx, hdx, hc, hbad⟩
    rw [Bool.eq_false_iff]
    intro htrue
    obtain ⟨b1, b2, b3⟩ := (canPieceFitAt_iff board p x y).mp htrue dy hdy dx hdx hc
    rcases b3 with b3 | ⟨b3, _⟩ <;> omega
  · intro hall
    exact (canPieceFitAt_iff board p x y).mpr fun dy hdy dx hdx hc =>
      ⟨(hall dy hdy dx hdx hc).1, (hall dy hdy dx hdx hc).2.1,
        Or.inl (hall dy hdy dx hdx hc).2.2⟩
  · rintro ⟨dy, hdy, dx, hdx, hc, hx0, hx1, hy0, hy1, hocc⟩
    rw [Bool.eq_false_iff]
    intro htrue
    obtain ⟨b1, b2, b3⟩ := (canPieceFitAt_iff board p x y).mp htrue dy hdy dx hdx hc
    rcases b3 with b3 | ⟨_, b4⟩
    · omega
    · exact hocc b4

/-- A board whose cell (19, 0) is occupied. -/
def c5Board : Board :=
  setCell emptyBoard 19 0 (some "#FF0000")

/-- C5 witness: each conjunct instantiated — an I piece at column 8 hangs
over the right wall (rejected), the same piece entirely above the board at
spawn columns fits, and a FLOAT piece on an occupied bottom cell is
rejected. -/
theorem fit_test_boundary_behaviour_witness :
    canPieceFitAt emptyBoard (createPiece .I) 8 0 = false ∧
    canPieceFitAt emptyBoard (createPiece .I) 3 (-3) = true ∧
    canPieceFitAt c5Board (createPiece .FLOAT) 0 19 = false := by
  refine ⟨(fit_test_boundary_behaviour emptyBoard (createPiece .I) 8 0).1
      ⟨1, by decide, 3, by decide, by decide, by decide⟩,
    (fit_test_boundary_behaviour emptyBoard (createPiece .I) 3 (-3)).2.1
      (by decide),
    (fit_test_boundary_behaviour c5Board (createPiece .FLOAT) 0 19).2.2
      ⟨0, by decide, 0, by decide, by decide, by decide⟩⟩

/-! ## C4 — ledger hash chain -/

/-- A sequence of `addScoreEvent` calls with the given
(type, points, serialized-metadata) arguments. -/
def appendEvents (sc : ScoringState)
    (specs : List (String × Int × String)) : ScoringState :=
  specs.foldl (fun sc spec => addScoreEvent sc spec.1 spec.2.1 spec.2.2) sc

/-- Appending an event whose hash is correctly linked to the current chain
tail keeps the validation loop succeeding. -/
lemma validateLedgerFrom_append (L : List ScoreEvent) (ph : String)
    (e : ScoreEvent) (hL : validateLedgerFrom ph L = true)
    (he : e.hash = hashEvent e.frame e.type e.points e.metadataJson
      (match L.getLast? with
       | some x => x.hash
       | none => ph)) :
    validateLedgerFrom ph (L ++ [e]) = true := by
  induction L generalizing ph with
  | nil =>
    simp only [List.getLast?_nil] at he
    simp only [List.nil_append, validateLedgerFrom]
    rw [if_neg (fun hne => hne he.symm)]
  | cons a rest ih =>
    simp only [List.cons_append, validateLedgerFrom] at hL ⊢
    by_cases hc : hashEvent a.frame a.type a.points a.metadataJson ph = a.hash
    · rw [if_neg (not_not_intro hc)] at hL ⊢
      refine ih _ hL ?_
      rcases rest with _ | ⟨b, bs⟩
      · simpa using he
      · simpa [List.getLast?_cons_cons] using he
    · rw [if_pos hc] at hL
      exact absurd hL (by simp)

/-- Every chain built by `addScoreEvent` from a valid chain stays valid. -/
lemma validate_appendEvents (specs : List (String × Int × String))
    (sc : ScoringState) (h : validateScoreLedger sc = true) :
    validateScoreLedger (appendEvents sc specs) = true := by
  induction specs generalizing sc with
  | nil => exact h
  | cons spec rest ih =>
    show validateScoreLedger
      (appendEvents (addScoreEvent sc spec.1 spec.2.1 spec.2.2) rest) = true
    refine ih _ ?_
    unfold validateScoreLedger at h ⊢
    unfold addScoreEvent
    exact validateLedgerFrom_append _ _ _ h rfl

/-- Overwrite the `points` field of the event at index `i`, leaving its
stored hash (and every other event) untouched. -/
def mutatePoints : List ScoreEvent → Nat → Int → List ScoreEvent
  | [], _, _ => []
  | e :: rest, 0, p' => { e with points := p' } :: rest
  | e :: rest, i + 1, p' => e :: mutatePoints rest i p'

/-- The hash that the validation loop feeds into the re-derivation of the
event at index `i` (the stored hash of its predecessor, or the root). -/
def prevHashAt (ph : String) : List ScoreEvent → Nat → String
  | _, 0 => ph
  | [], _ + 1 => ph
  | e :: rest, i + 1 => prevHashAt e.hash rest i

/-- If re-deriving the hash of the mutated event no longer matches its
stored hash, the validation loop rejects. -/
lemma validateLedgerFrom_mutate_false (L : List ScoreEvent) (ph : String)
    (i : Nat) (p' : Int) (hlen : i < L.length)
    (hvalid : validateLedgerFrom ph L = true)
    (hdiff : hashEvent (L.get ⟨i, hlen⟩).frame (L.get ⟨i, hlen⟩).type p'
        (L.get ⟨i, hlen⟩).metadataJson (prevHashAt ph L i) ≠
      (L.get ⟨i, hlen⟩).hash) :
    validateLedgerFrom ph (mutatePoints L i p') = false := by
  induction L generalizing ph i with
  | nil => exact absurd hlen (by simp)
  | cons a rest ih =>
    cases i with
    | zero =>
      have hdiff' : hashEvent a.frame a.type p' a.metadataJson ph ≠ a.hash :=
        hdiff
      show (if hashEvent a.frame a.type p' a.metadataJson ph ≠ a.hash then
          false
        else validateLedgerFrom a.hash rest) = false
      rw [if_pos hdiff']
    | succ j =>
      have hj : j < rest.length := by simpa using hlen
      have hdiff' : hashEvent (rest.get ⟨j, hj⟩).frame (rest.get ⟨j, hj⟩).type
          p' (rest.get ⟨j, hj⟩).metadataJson (prevHashAt a.hash rest j) ≠
          (rest.get ⟨j, hj⟩).hash := hdiff
      show validateLedgerFrom ph (a :: mutatePoints rest j p') = false
      unfold validateLedgerFrom at hvalid ⊢
      by_cases hc : hashEvent a.frame a.type a.points a.metadataJson ph = a.hash
      · rw [if_neg (not_not_intro hc)] at hvalid ⊢
        exact ih a.hash j hj hvalid hdiff'
      · rw [if_pos hc] at hvalid
        exact absurd hvalid (by simp)

/-- C4 (amended): every ledger produced by a sequence of `addScoreEvent`
calls validates; and mutating the `points` field of any single event makes
`validateScoreLedger` return false **provided** the re-derived hash of the
mutated event differs from the stored one — the 32-bit rolling hash is not
injective, so a colliding mutation (see the counterexample) escapes
detection. -/
theorem ledger_validates_and_detects_noncolliding_mutation :
    (∀ specs : List (String × Int × String),
      validateScoreLedger (appendEvents initScoring specs) = true) ∧
    (∀ (specs : List (String × Int × String)) (i : Nat) (p' : Int)
      (hlen : i < (appendEvents initScoring specs).scoreLedger.length),
      hashEvent ((appendEvents initScoring specs).scoreLedger.get ⟨i, hlen⟩).frame
          ((appendEvents initScoring specs).scoreLedger.get ⟨i, hlen⟩).type p'
          ((appendEvents initScoring specs).scoreLedger.get ⟨i, hlen⟩).metadataJson
          (prevHashAt "0" (appendEvents initScoring specs).scoreLedger i) ≠
        ((appendEvents initScoring specs).scoreLedger.get ⟨i, hlen⟩).hash →
      validateScoreLedger
        { appendEvents initScoring specs with
          scoreLedger :=
            mutatePoints (appendEvents initScoring specs).scoreLedger i p' } =
        false) := by
  constructor
  · intro specs
    exact validate_appendEvents specs initScoring rfl
  · intro specs i p' hlen hdiff
    exact validateLedgerFrom_mutate_false _ "0" i p' hlen
      (validate_appendEvents specs initScoring rfl) hdiff

/-- C4 witness: a one-event ledger validates, and mutating its points from
2 to 3 (whose re-derived hash differs) is rejected. -/
theorem ledger_validates_and_detects_noncolliding_mutation_witness :
    validateScoreLedger (appendEvents initScoring [("SOFT_DROP", 2, rowsMeta 2)]) = true ∧
    validateScoreLedger
      { appendEvents initScoring [("SOFT_DROP", 2, rowsMeta 2)] with
        scoreLedger :=
          mutatePoints
            (appendEvents initScoring [("SOFT_DROP", 2, rowsMeta 2)]).scoreLedger
            0 3 } = false :=
  ⟨ledger_validates_and_detects_noncolliding_mutation.1 _,
   ledger_validates_and_detects_noncolliding_mutation.2
     [("SOFT_DROP", 2, rowsMeta 2)] 0 3 (by decide) (by decide)⟩

/-- The colliding pair: with the prefix `0|0|SOFT_DROP|` and the suffix
`` |{"rows":5} ``, the decimal strings `14020600000` and `10805098776`
produce the same 32-bit rolling hash. -/
def c4Specs : List (String × Int × String) :=
  [("SOFT_DROP", 14020600000, rowsMeta 5)]

/-- C4 (counterexample): mutating the `points` field of the single event
from `14020600000` to the different value `10805098776` leaves
`validateScoreLedger` returning **true** — a hash collision defeats the
claimed universal detection. -/
theorem ledger_point_mutation_collision_undetected :
    (14020600000 : Int) ≠ 10805098776 ∧
    validateScoreLedger
      { appendEvents initScoring c4Specs with
        scoreLedger :=
          mutatePoints (appendEvents initScoring c4Specs).scoreLedger
            0 10805098776 } = true := by
  exact ⟨by decide, by decide⟩

/-! ## C2 — spin bonus takes the spin table -/

/-- C2 (confirmed): when `scoreLineClears` runs on a state whose current
piece is T-shaped, whose last move was a rotation, and at least 3 of the
4 diagonal corners around the piece's center are filled, the spin-bonus
branch is taken and the recorded `LINE_CLEAR` base score comes from the
spin table `[400, 800, 1200, 1600]` (times level) for the given line
count. -/
theorem spin_bonus_selects_spin_table (sc : ScoringState) (s : GameState)
    (n : Nat) (lastMove : Option LastMove) (p : Piece) (d : Int)
    (hcur : s.current = some p) (hT : p.type = PieceType.T)
    (hlm : lastMove = some (.rotateMove d))
    (hcorners : 3 ≤ countFilledCorners s.board p)
    (hn : 1 ≤ n) :
    detectSpinBonus s lastMove = true ∧
    ∃ total sc', scoreLineClears sc s n lastMove = some (total, sc') ∧
      sc'.scoreLedger.getLast?.map (fun e => (e.type, e.points)) =
        some ("LINE_CLEAR",
          [400, 800, 1200, 1600].getD (min (n - 1) 3) 0 * s.level) := by
  have hspin : detectSpinBonus s lastMove = true := by
    unfold detectSpinBonus
    rw [hcur, hlm]
    simp [hT, hcorners]
  refine ⟨hspin, ?_⟩
  have hn0 : ¬(n = 0) := by omega
  simp only [scoreLineClears, hspin, hn0, true_and, and_false, if_false,
    if_true, ite_true, ite_false]
  refine ⟨_, _, rfl, ?_⟩
  simp [addScoreEvent, List.getLast?_concat]

/-- A T piece tucked against the left wall on the bottom row: corners
(0,19)± give two out-of-bounds columns and one below-floor row. -/
def c2State : GameState :=
  { createInitialState with
      current := some { createPiece .T with gridX := -1, gridY := 18 } }

set_option maxRecDepth 100000 in
/-- C2 witness: one cleared line at level 1 records base 400 (spin table)
instead of 100 (normal table). -/
theorem spin_bonus_selects_spin_table_witness :
    detectSpinBonus c2State (some (.rotateMove 1)) = true ∧
    ∃ total sc',
      scoreLineClears initScoring c2State 1 (some (.rotateMove 1)) =
        some (total, sc') ∧
      sc'.scoreLedger.getLast?.map (fun e => (e.type, e.points)) =
        some ("LINE_CLEAR", 400) :=
  spin_bonus_selects_spin_table initScoring c2State 1 _
    { createPiece .T with gridX := -1, gridY := 18 } 1 rfl rfl rfl
    (by decide) (by decide)

/-! ## C3 — the perfect-clear bonus is checked on the wrong board -/

/-- A board whose bottom row is full and all other cells empty. -/
def c3Board : Board :=
  List.replicate 19 (List.replicate 10 none) ++
    [List.replicate 10 (some "#FF0000")]

/-- A CLEARING state about to finalize the removal of the full bottom row:
removing it empties the board, so the spec's perfect-clear bonus
(800 × level on a single) should apply. -/
def c3State : GameState :=
  { createInitialState with
      phase := .CLEARING, clearingLines := [19], board := c3Board,
      next := some (createPiece .I), rng := some 0,
      scoringEngine := some initScoring, pieces := 1, generation := 1 }

set_option maxRecDepth 400000 in
/-- C3 (code bug): removing the pending lines empties the board, yet
`finishClearing` awards only the base 100 (not 100 + 800) and logs no
`PERFECT_CLEAR` event: `scoreLineClears` receives the *pre-removal* board
(which still contains the full row being cleared), so `isPerfectClear` is
false there and the documented bonus can never trigger. -/
theorem perfect_clear_bonus_never_paid :
    isPerfectClear (removeClearedLines c3State.board c3State.clearingLines) = true ∧
    (finishClearing 0 c3State).map (fun s => s.score) = some 100 ∧
    (finishClearing 0 c3State).map (fun s =>
        s.scoringEngine.map (fun sc => sc.scoreLedger.map (fun e => e.type))) =
      some (some ["LINE_CLEAR"]) := by
  refine ⟨by decide, by decide, by decide⟩

/-! ## C8 — silently ignored input -/

/-- A falling I piece flush against the left wall. -/
def c8State : GameState :=
  { createInitialState with
      phase := .FALLING,
      current := some { createPiece .I with gridX := 0, gridY := 5 } }

/-- C8 (counterexample): a movement rejected by the fit test does *not*
return the state unchanged — the rejected-move branch of `move` writes a
fresh feedback descriptor into `lastMove` (here from `none` to a
`MOVE`-rejection record). -/
theorem rejected_move_updates_last_move :
    handleInput 0 (.MOVE (-1) 0) c8State ≠ some c8State ∧
    handleInput 0 (.MOVE (-1) 0) c8State =
      some { c8State with
        lastMove := some (.moveRejected (-1) 0 true false false) } := by
  exact ⟨by decide, by decide⟩

/-- C8 (amended): `handleInput` returns the state unchanged outside
FALLING/LOCKING, without a current piece, for unrecognized action tags,
and for a rejected rotation; a rejected movement (not covered by the FLOAT
drift allowance) leaves every field unchanged **except** `lastMove`, which
records the rejection. -/
theorem handle_input_silently_ignores (now : Int) (s : GameState)
    (a : GameAction) (dx dy d : Int) :
    (¬(s.phase = .FALLING ∨ s.phase = .LOCKING) →
      handleInput now a s = some s) ∧
    (s.current = none → handleInput now a s = some s) ∧
    ((a = .SPACE ∨ a = .ENTER ∨ a = .ESCAPE ∨ a = .UNKNOWN) →
      handleInput now a s = some s) ∧
    (∀ p, s.current = some p → tryRotation s.board p d = none →
      handleInput now (.ROTATE d) s = some s) ∧
    (∀ p, s.current = some p →
      (s.phase = .FALLING ∨ s.phase = .LOCKING) →
      canPieceFitAt s.board p (p.gridX + dx) (p.gridY + dy) = false →
      (p.type = .FLOAT ∧ dx ≠ 0 ∧ dy = 0 →
        ¬(p.gridY + dy + 1 < 20 ∧
          canPieceFitAt s.board p (p.gridX + dx) (p.gridY + dy + 1) = true)) →
      handleInput now (.MOVE dx dy) s =
        some { s with lastMove := some (.moveRejected dx dy
          (decide (dx ≠ 0)) (decide (0 < dy)) (decide (dy < 0))) }) := by
  refine ⟨?_, ?_, ?_, ?_, ?_⟩
  · intro h
    unfold handleInput
    rw [if_pos h]
  · intro h
    unfold handleInput
    split
    · rfl
    · rw [h]
  · intro h
    unfold handleInput
    split
    · rfl
    · cases hcur : s.current with
      | none => rfl
      | some cur => rcases h with rfl | rfl | rfl | rfl <;> rfl
  · intro p hp hrot
    unfold handleInput
    split
    · rfl
    · rw [hp]
      show rotate s d = some s
      unfold rotate
      rw [hp]
      dsimp only
      rw [hrot]
  · intro p hp hphase hfit hdrift
    unfold handleInput
    rw [if_neg (not_not_intro hphase), hp]
    dsimp only
    show move s dx dy = some _
    unfold move
    rw [hp]
    dsimp only
    rw [if_neg (by simp [hfit])]
    have hdnone : (if p.type = .FLOAT ∧ dx ≠ 0 ∧ dy = 0 then
        if p.gridY + dy + 1 < 20 ∧
            canPieceFitAt s.board p (p.gridX + dx) (p.gridY + dy + 1) = true
          then some (p.gridX + dx, p.gridY + dy + 1) else none
      else none) = (none : Option (Int × Int)) := by
      by_cases hf : p.type = .FLOAT ∧ dx ≠ 0 ∧ dy = 0
      · rw [if_pos hf, if_neg (hdrift hf)]
      · rw [if_neg hf]
    rw [hdnone]

/-- C8 witness: the out-of-phase conjunct at the MENU state, and the
rejected-move conjunct evaluated against the left wall. -/
theorem handle_input_silently_ignores_witness :
    handleInput 0 .HOLD createInitialState = some createInitialState ∧
    handleInput 0 (.MOVE (-1) 0) c8State =
      some { c8State with
        lastMove := some (.moveRejected (-1) 0 true false false) } := by
  refine ⟨(handle_input_silently_ignores 0 createInitialState .HOLD
      (-1) 0 1).1 (by decide), ?_⟩
  have h := (handle_input_silently_ignores 0 c8State (.MOVE (-1) 0)
      (-1) 0 1).2.2.2.2 { createPiece .I with gridX := 0, gridY := 5 }
      rfl (by decide) (by decide) (by decide)
  simpa using h

/-! ## C10 — score monotonicity -/

/-- A clearing state identical to `c3State` except for a (corrupted)
negative level. -/
def c10State : GameState :=
  { createInitialState with
      phase := .CLEARING, clearingLines := [19], board := c3Board,
      next := some (createPiece .I), rng := some 0,
      scoringEngine := some initScoring, pieces := 1, generation := 1,
      level := -1 }

set_option maxRecDepth 400000 in
/-- C10 (counterexample): on a state with level `-1` (no engine path keeps
the level negative, but the claim quantifies over *every* state), the
clearing tick awards `100 * (-1)` and the score drops from 0 to −100. -/
theorem tick_decreases_score_at_negative_level :
    c10State.score = 0 ∧
    (tick 0 300 c10State).map (fun s => s.score) = some (-100) := by
  exact ⟨rfl, by decide⟩

/-- Entries of the spin base-score table are nonnegative. -/
lemma spinTable_nonneg (i : Nat) :
    0 ≤ ([400, 800, 1200, 1600] : List Int).getD i 0 := by
  rcases i with _ | _ | _ | _ | i <;>
    simp [List.getD_cons_succ, List.getD_cons_zero, List.getD_nil]

/-- Entries of the normal base-score table are nonnegative. -/
lemma normalTable_nonneg (i : Nat) :
    0 ≤ ([0, 100, 300, 500, 800] : List Int).getD i 0 := by
  rcases i with _ | _ | _ | _ | _ | i <;>
    simp [List.getD_cons_succ, List.getD_cons_zero, List.getD_nil]

/-- Entries of the perfect-clear table are nonnegative. -/
lemma perfectTable_nonneg (i : Nat) :
    0 ≤ ([0, 800, 1200, 1800, 2000] : List Int).getD i 0 := by
  rcases i with _ | _ | _ | _ | _ | i <;>
    simp [List.getD_cons_succ, List.getD_cons_zero, List.getD_nil]

/-- With a nonnegative level, `scoreLineClears` returns a nonnegative
aggregate: every base table entry and every bonus is nonnegative. -/
lemma scoreLineClears_nonneg (sc : ScoringState) (s : GameState) (n : Nat)
    (lm : Option LastMove) (hlev : 0 ≤ s.level) (total : Int)
    (sc' : ScoringState)
    (h : scoreLineClears sc s n lm = some (total, sc')) : 0 ≤ total := by
  simp only [scoreLineClears] at h
  split at h
  · exact absurd h (by simp)
  · rw [Option.some.injEq, Prod.mk.injEq] at h
    obtain ⟨rfl, -⟩ := h
    have hbase : 0 ≤ (if detectSpinBonus s lm = true then
        ([400, 800, 1200, 1600] : List Int).getD (min (n - 1) 3) 0
      else ([0, 100, 300, 500, 800] : List Int).getD (min n 4) 0) := by
      split
      · exact spinTable_nonneg _
      · exact normalTable_nonneg _
    set base := (if detectSpinBonus s lm = true then
        ([400, 800, 1200, 1600] : List Int).getD (min (n - 1) 3) 0
      else ([0, 100, 300, 500, 800] : List Int).getD (min n 4) 0) with hbdef
    have hb2b : 0 ≤ ⌊(base : ℚ) * (1 / 2)⌋ * s.level := by
      refine mul_nonneg (Int.floor_nonneg.mpr ?_) hlev
      positivity
    have hbl : 0 ≤ base * s.level := mul_nonneg hbase hlev
    repeat' split
    all_goals dsimp only
    all_goals repeat' refine add_nonneg ?_ ?_
    all_goals first
      | exact hbl
      | exact hb2b
      | exact mul_nonneg (perfectTable_nonneg _) hlev
      | exact mul_nonneg (mul_nonneg (by norm_num : (0 : Int) ≤ 50) (by omega))
          hlev

/-- `gameOver` never changes the score. -/
lemma gameOver_score (s : GameState) : (gameOver s).score = s.score := by
  unfold gameOver
  cases hsc : s.scoringEngine <;> rfl

/-- `spawnNextPiece` never changes the score. -/
lemma spawnNextPiece_score (now : Int) (s s' : GameState)
    (h : spawnNextPiece now s = some s') : s'.score = s.score := by
  simp only [spawnNextPiece] at h
  repeat' split at h
  all_goals first
    | exact Option.noConfusion h
    | (rw [Option.some.injEq] at h; subst h;
       first
         | rfl
         | exact gameOver_score s)

/-- `lockPiece` never changes the score. -/
lemma lockPiece_score (now : Int) (s s' : GameState)
    (h : lockPiece now s = some s') : s'.score = s.score := by
  simp only [lockPiece] at h
  repeat' split at h
  all_goals first
    | exact Option.noConfusion h
    | (rw [Option.some.injEq] at h; subst h;
       first
         | rfl
         | exact gameOver_score _)
    | exact (spawnNextPiece_score _ _ _ h).trans rfl

/-- `processFalling` never changes the score. -/
lemma processFalling_score (dt : ℚ) (s : GameState) :
    (processFalling dt s).score = s.score := by
  simp only [processFalling]
  repeat' split
  all_goals rfl

/-- `processLocking` never changes the score. -/
lemma processLocking_score (now : Int) (dt : ℚ) (s s' : GameState)
    (h : processLocking now dt s = some s') : s'.score = s.score := by
  simp only [processLocking] at h
  repeat' split at h
  all_goals first
    | exact Option.noConfusion h
    | (rw [Option.some.injEq] at h; subst h; rfl)
    | exact lockPiece_score _ _ _ h

/-- With a nonnegative level, `finishClearing` never decreases the score. -/
lemma finishClearing_score_le (now : Int) (s s' : GameState)
    (hlev : 0 ≤ s.level) (h : finishClearing now s = some s') :
    s.score ≤ s'.score := by
  simp only [finishClearing] at h
  split at h
  · -- a scoring engine is attached
    split at h
    · exact Option.noConfusion h
    · next points sc'' hsl =>
      have hp : 0 ≤ points := scoreLineClears_nonneg _ _ _ _ hlev _ _ hsl
      have hss := spawnNextPiece_score _ _ _ h
      dsimp only at hss
      omega
  · have hss := spawnNextPiece_score _ _ _ h
    dsimp only at hss
    omega

/-- `processClearing` never decreases the score (nonnegative level). -/
lemma processClearing_score_le (now : Int) (dt : ℚ) (s s' : GameState)
    (hlev : 0 ≤ s.level) (h : processClearing now dt s = some s') :
    s.score ≤ s'.score := by
  simp only [processClearing] at h
  split at h
  · exact finishClearing_score_le _ _ _ hlev h
  · rw [Option.some.injEq] at h
    subst h
    exact le_refl _

/-- `executeMove` never decreases the score (it adds the soft-drop points
`dy` only when `0 < dy`). -/
lemma executeMove_score_le (s : GameState) (nx ny dx dy : Int)
    (s' : GameState) (h : executeMove s nx ny dx dy = some s') :
    s.score ≤ s'.score := by
  simp only [executeMove, softDropScore, scoreSoftDrop] at h
  repeat' split at h
  all_goals first
    | exact Option.noConfusion h
    | (rw [Option.some.injEq] at h; subst h; dsimp only; omega)

/-- `move` never decreases the score. -/
lemma move_score_le (s : GameState) (dx dy : Int) (s' : GameState)
    (h : move s dx dy = some s') : s.score ≤ s'.score := by
  simp only [move] at h
  repeat' split at h
  all_goals first
    | exact Option.noConfusion h
    | (rw [Option.some.injEq] at h; subst h; exact le_refl _)
    | exact executeMove_score_le _ _ _ _ _ _ h

/-- `rotate` never changes the score. -/
lemma rotate_score (s : GameState) (d : Int) (s' : GameState)
    (h : rotate s d = some s') : s'.score = s.score := by
  simp only [rotate] at h
  repeat' split at h
  all_goals first
    | exact Option.noConfusion h
    | (rw [Option.some.injEq] at h; subst h; rfl)

/-- `hardDrop` never decreases the score (it adds `2 × dropDistance` only
when the distance is positive, then locks, which preserves the score). -/
lemma hardDrop_score_le (now : Int) (s s' : GameState)
    (h : hardDrop now s = some s') : s.score ≤ s'.score := by
  simp only [hardDrop, scoreHardDrop] at h
  repeat' split at h
  all_goals first
    | exact Option.noConfusion h
    | (have hl := lockPiece_score _ _ _ h; dsimp only at hl; omega)

/-- `tryHold` never changes the score. -/
lemma tryHold_score (now : Int) (s s' : GameState)
    (h : tryHold now s = some s') : s'.score = s.score := by
  simp only [tryHold] at h
  repeat' split at h
  all_goals first
    | exact Option.noConfusion h
    | (rw [Option.some.injEq] at h; subst h; rfl)

/-- C10 (amended): on every state with a nonnegative level (the engine
itself only ever produces levels ≥ 1), neither a tick nor an input
application decreases the score: soft drop, hard drop and every line-clear
bonus add nonnegative amounts.  (The counterexample shows the claim fails
for corrupted states with a negative level, which scales the line-clear
base score.) -/
theorem score_monotone_under_simulation (now : Int) (dt : ℚ)
    (a : GameAction) (s : GameState) (hlev : 0 ≤ s.level) :
    (∀ s', tick now dt s = some s' → s.score ≤ s'.score) ∧
    (∀ s', handleInput now a s = some s' → s.score ≤ s'.score) := by
  constructor
  · intro s' h
    unfold tick at h
    repeat' split at h
    all_goals first
      | exact processClearing_score_le _ _ _ _ hlev h
      | (have hl := processLocking_score _ _ _ _ h; omega)
      | (rw [Option.some.injEq] at h; subst h;
         first
           | exact le_refl _
           | (rw [processFalling_score]))
  · intro s' h
    unfold handleInput at h
    repeat' split at h
    all_goals first
      | exact move_score_le _ _ _ _ h
      | (have hr := rotate_score _ _ _ h; omega)
      | exact hardDrop_score_le _ _ _ h
      | (have ht := tryHold_score _ _ _ h; omega)
      | (rw [Option.some.injEq] at h; subst h; exact le_refl _)

set_option maxRecDepth 400000 in
/-- C10 witness: the clearing tick on the level-1 state `c3State` takes
the score from 0 to 100, and the amended theorem certifies it does not
decrease. -/
theorem score_monotone_under_simulation_witness :
    (0 : Int) ≤ c3State.level ∧
    tick 0 300 c3State = some ((tick 0 300 c3State).getD c3State) ∧
    c3State.score ≤ ((tick 0 300 c3State).getD c3State).score :=
  ⟨by decide, by decide,
    (score_monotone_under_simulation 0 300 .UNKNOWN c3State (by decide)).1
      ((tick 0 300 c3State).getD c3State) (by decide)⟩

/-! ## C6 — piece presence versus phase -/

/-- The piece-presence/phase relationship that actually holds on reachable
states: a current piece exists exactly in the FALLING, LOCKING **and
PAUSED** phases (pausing keeps the falling piece so that resuming can
continue with it). -/
def PieceIffActive (s : GameState) : Prop :=
  s.current.isSome = true ↔
    (s.phase = Phase.FALLING ∨ s.phase = Phase.LOCKING ∨
      s.phase = Phase.PAUSED)

lemma pieceIffActive_gameOver (s : GameState) :
    PieceIffActive (gameOver s) := by
  unfold gameOver PieceIffActive
  cases hsc : s.scoringEngine <;> simp

lemma pieceIffActive_spawn (now : Int) (s s' : GameState)
    (hcur : s.current = none) (h : spawnNextPiece now s = some s') :
    PieceIffActive s' := by
  simp only [spawnNextPiece] at h
  repeat' split at h
  all_goals first
    | exact Option.noConfusion h
    | (rw [Option.some.injEq] at h; subst h;
       first
         | exact pieceIffActive_gameOver _
         | (unfold PieceIffActive; simp_all))

lemma pieceIffActive_lockPiece (now : Int) (s s' : GameState)
    (h : lockPiece now s = some s') : PieceIffActive s' := by
  simp only [lockPiece] at h
  repeat' split at h
  all_goals first
    | exact Option.noConfusion h
    | (rw [Option.some.injEq] at h; subst h;
       first
         | exact pieceIffActive_gameOver _
         | (unfold PieceIffActive; simp_all))
    | exact pieceIffActive_spawn _ _ _ rfl h

lemma pieceIffActive_processFalling (dt : ℚ) (s : GameState)
    (hphase : s.phase = Phase.FALLING) :
    PieceIffActive (processFalling dt s) := by
  cases hc : s.current with
  | none =>
    simp only [processFalling, hc]
    unfold PieceIffActive
    simp [hc]
  | some p =>
    simp only [processFalling, hc]
    repeat' split
    all_goals (unfold PieceIffActive; simp [hc, hphase])

lemma pieceIffActive_processLocking (now : Int) (dt : ℚ) (s s' : GameState)
    (hphase : s.phase = Phase.LOCKING)
    (h : processLocking now dt s = some s') : PieceIffActive s' := by
  cases hc : s.current with
  | none =>
    simp only [processLocking, hc] at h
    exact Option.noConfusion h
  | some p =>
    simp only [processLocking, hc] at h
    repeat' split at h
    all_goals first
      | exact Option.noConfusion h
      | exact pieceIffActive_lockPiece _ _ _ h
      | (rw [Option.some.injEq] at h; subst h; unfold PieceIffActive;
         simp [hc, hphase])

lemma pieceIffActive_finishClearing (now : Int) (s s' : GameState)
    (hcur : s.current = none) (h : finishClearing now s = some s') :
    PieceIffActive s' := by
  simp only [finishClearing] at h
  repeat' split at h
  all_goals first
    | exact Option.noConfusion h
    | (refine pieceIffActive_spawn _ _ _ ?_ h; exact hcur)

lemma pieceIffActive_processClearing (now : Int) (dt : ℚ) (s s' : GameState)
    (hphase : s.phase = Phase.CLEARING) (hcur : s.current = none)
    (h : processClearing now dt s = some s') : PieceIffActive s' := by
  simp only [processClearing] at h
  split at h
  · exact pieceIffActive_finishClearing _ _ _ hcur h
  · rw [Option.some.injEq] at h
    subst h
    unfold PieceIffActive
    simp [hphase, hcur]

lemma pieceIffActive_tick (now : Int) (dt : ℚ) (s s' : GameState)
    (hinv : PieceIffActive s) (h : tick now dt s = some s') :
    PieceIffActive s' := by
  unfold tick at h
  repeat' split at h
  all_goals first
    | (rw [Option.some.injEq] at h; subst h;
       first
         | assumption
         | exact pieceIffActive_processFalling _ _ (by assumption))
    | exact pieceIffActive_processLocking _ _ _ _ (by assumption) h
    | (have hcur : s.current = none := by
         cases hc : s.current with
         | none => rfl
         | some p => unfold PieceIffActive at hinv; simp_all
       exact pieceIffActive_processClearing _ _ _ _ (by assumption) hcur h)

lemma pieceIffActive_executeMove (s : GameState) (nx ny dx dy : Int)
    (s' : GameState) (hphase : s.phase = Phase.FALLING ∨ s.phase = Phase.LOCKING)
    (h : executeMove s nx ny dx dy = some s') : PieceIffActive s' := by
  simp only [executeMove, softDropScore, scoreSoftDrop] at h
  repeat' split at h
  all_goals first
    | exact Option.noConfusion h
    | (rw [Option.some.injEq] at h; subst h; unfold PieceIffActive;
       rcases hphase with hp | hp <;> simp [hp])

lemma pieceIffActive_move (s : GameState) (dx dy : Int) (s' : GameState)
    (hphase : s.phase = Phase.FALLING ∨ s.phase = Phase.LOCKING)
    (h : move s dx dy = some s') : PieceIffActive s' := by
  simp only [move] at h
  repeat' split at h
  all_goals first
    | exact Option.noConfusion h
    | exact pieceIffActive_executeMove _ _ _ _ _ _ hphase h
    | (rw [Option.some.injEq] at h; subst h; unfold PieceIffActive;
       rcases hphase with hp | hp <;> simp_all [hp])

lemma pieceIffActive_rotate (s : GameState) (d : Int) (s' : GameState)
    (hphase : s.phase = Phase.FALLING ∨ s.phase = Phase.LOCKING)
    (hinv : PieceIffActive s) (h : rotate s d = some s') :
    PieceIffActive s' := by
  simp only [rotate] at h
  repeat' split at h
  all_goals first
    | exact Option.noConfusion h
    | (rw [Option.some.injEq] at h; subst h;
       first
         | assumption
         | (unfold PieceIffActive; rcases hphase with hp | hp <;> simp [hp]))

lemma pieceIffActive_hardDrop (now : Int) (s s' : GameState)
    (h : hardDrop now s = some s') : PieceIffActive s' := by
  simp only [hardDrop, scoreHardDrop] at h
  repeat' split at h
  all_goals first
    | exact Option.noConfusion h
    | exact pieceIffActive_lockPiece _ _ _ h

lemma pieceIffActive_tryHold (now : Int) (s s' : GameState)
    (hinv : PieceIffActive s) (h : tryHold now s = some s') :
    PieceIffActive s' := by
  simp only [tryHold] at h
  repeat' split at h
  all_goals first
    | exact Option.noConfusion h
    | (rw [Option.some.injEq] at h; subst h;
       first
         | assumption
         | (unfold PieceIffActive; simp))

lemma pieceIffActive_handleInput (now : Int) (a : GameAction)
    (s s' : GameState) (hinv : PieceIffActive s)
    (h : handleInput now a s = some s') : PieceIffActive s' := by
  unfold handleInput at h
  by_cases hph : ¬(s.phase = Phase.FALLING ∨ s.phase = Phase.LOCKING)
  · rw [if_pos hph, Option.some.injEq] at h
    subst h
    exact hinv
  · rw [if_neg hph] at h
    have hphase := not_not.mp hph
    repeat' split at h
    all_goals first
      | (rw [Option.some.injEq] at h; subst h; exact hinv)
      | exact pieceIffActive_move _ _ _ _ hphase h
      | exact pieceIffActive_rotate _ _ _ hphase hinv h
      | exact pieceIffActive_hardDrop _ _ _ h
      | exact pieceIffActive_tryHold _ _ _ hinv h

lemma pieceIffActive_startGame (now : Int) (s s' : GameState)
    (hinv : PieceIffActive s) (h : startGame now s = some s') :
    PieceIffActive s' := by
  simp only [startGame] at h
  repeat' split at h
  all_goals first
    | exact Option.noConfusion h
    | (rw [Option.some.injEq] at h; subst h;
       first
         | assumption
         | (unfold PieceIffActive; simp))

lemma pieceIffActive_handleAction (now : Int) (a : GameAction)
    (s s' : GameState) (hinv : PieceIffActive s)
    (h : handleAction now a s = some s') : PieceIffActive s' := by
  unfold handleAction at h
  repeat' split at h
  all_goals first
    | exact Option.noConfusion h
    | exact pieceIffActive_startGame _ _ _ hinv h
    | exact pieceIffActive_handleInput _ _ _ _ hinv h
    | (rw [Option.some.injEq] at h; subst h;
       first
         | assumption
         | (unfold PieceIffActive; decide)
         | (unfold PieceIffActive at *; simp_all))

/-- C6 (amended): in every reachable state, a current piece is present if
and only if the phase is FALLING, LOCKING **or PAUSED** — the pause
transition (see the counterexample) keeps the piece, so the claimed
two-way partition "piece ⟺ FALLING/LOCKING" must include PAUSED among the
piece-holding phases. -/
theorem piece_present_iff_falling_locking_or_paused (s : GameState)
    (h : Reachable s) :
    s.current.isSome = true ↔
      (s.phase = Phase.FALLING ∨ s.phase = Phase.LOCKING ∨
        s.phase = Phase.PAUSED) := by
  have hinv : PieceIffActive s := by
    induction h with
    | init => unfold PieceIffActive; decide
    | tick now dt s s' hr heq ih => exact pieceIffActive_tick _ _ _ _ ih heq
    | act now a s s' hr heq ih =>
      exact pieceIffActive_handleAction _ _ _ _ ih heq
  exact hinv

/-- C6 witness: the amended invariant at the initial state. -/
theorem piece_present_iff_falling_locking_or_paused_witness :
    createInitialState.current.isSome = true ↔
      (createInitialState.phase = Phase.FALLING ∨
        createInitialState.phase = Phase.LOCKING ∨
        createInitialState.phase = Phase.PAUSED) :=
  piece_present_iff_falling_locking_or_paused _ Reachable.init

/-- The state produced by pressing SPACE (start) in the menu at
wall-clock 0. -/
def c6Started : GameState :=
  (handleAction 0 .SPACE createInitialState).getD createInitialState

/-- The state produced by then pressing ESCAPE (pause). -/
def c6Paused : GameState :=
  (handleAction 0 .ESCAPE c6Started).getD createInitialState

set_option maxRecDepth 400000 in
/-- C6 (counterexample): starting a game and pressing ESCAPE reaches a
state whose phase is PAUSED while a current piece is still present, so
"a piece exists if and only if the phase is FALLING or LOCKING" fails on
reachable states. -/
theorem paused_reachable_state_retains_piece :
    ∃ s₁ s₂, handleAction 0 .SPACE createInitialState = some s₁ ∧
      handleAction 0 .ESCAPE s₁ = some s₂ ∧ Reachable s₂ ∧
      s₂.phase = Phase.PAUSED ∧ s₂.current.isSome = true := by
  refine ⟨c6Started, c6Paused, ?_, ?_, ?_, ?_, ?_⟩
  · decide
  · decide
  · exact Reachable.act 0 .ESCAPE c6Started c6Paused
      (Reachable.act 0 .SPACE createInitialState c6Started Reachable.init
        (by decide)) (by decide)
  · decide
  · decide

end NeonDrop
